import Mathlib

/-!
Verification of the item-item collaborative-filtering pipeline of the
Movie-recommender repository (notebooks collab_part1, collab_part2, collab_part3).

The notebooks are PySpark dataframe programs.  They are embedded shallowly:

* a dataframe of ratings is a list of `Rating` records (userId, movieId, rating);
* ratings are exact rationals (an exact-arithmetic model of the double column);
* the IEEE NaN that Python float division produces on a zero denominator is
  modelled by `Option`: `none` is NaN, `some q` a finite value;
* the square root used inside the cosine similarity is not rational, so the
  similarity score is kept symbolic in an arbitrary function `s : ℚ → ℚ`
  standing for the library square root; no claim below depends on its values.

Source mapping (collab_part2.ipynb unless noted):
  co_sym                  lines 113-118
  pivot_utility           lines 244-246 (groupBy movieId, pivot userId, first, fillna 0, sort)
  similarity_matrix       lines 253-257 (crossJoin, where a.movieId != b.movieId)
  df_user_movie_rating    lines 260-262 (left join of training with similarity_matrix)
  neighbor_set/result_df  lines 329-343 (window rank <= nValue, weighted sums, coalesce)
  predict_user_rating     collab_part1.ipynb lines 267-285
-/

namespace MovieRec

/-- One observation row of the ratings dataframe (timestamp already dropped). -/
structure Rating where
  userId : ℕ
  movieId : ℕ
  rating : ℚ
deriving DecidableEq, Repr

/-- Generic insertion by an order key; used to model the deterministic sorts
(Spark sort / orderBy) of the embedding. -/
def insertByKey {α β : Type} [LinearOrder β] (k : α → β) (e : α) : List α → List α
  | [] => [e]
  | x :: xs => if k e ≤ k x then e :: x :: xs else x :: insertByKey k e xs

/-- Sort ascending by the key `k` (insertion sort). -/
def sortByKey {α β : Type} [LinearOrder β] (k : α → β) (l : List α) : List α :=
  l.foldr (insertByKey k) []

theorem mem_insertByKey {α β : Type} [LinearOrder β] (k : α → β) (e a : α) (l : List α) :
    a ∈ insertByKey k e l ↔ a = e ∨ a ∈ l := by
  induction l with
  | nil => simp [insertByKey]
  | cons x xs ih =>
    by_cases h : k e ≤ k x
    · simp [insertByKey, h]
    · simp only [insertByKey, if_neg h, List.mem_cons, ih]
      tauto

theorem length_insertByKey {α β : Type} [LinearOrder β] (k : α → β) (e : α) (l : List α) :
    (insertByKey k e l).length = l.length + 1 := by
  induction l with
  | nil => simp [insertByKey]
  | cons x xs ih =>
    by_cases h : k e ≤ k x
    · simp [insertByKey, h]
    · simp [insertByKey, h, ih]

theorem mem_sortByKey {α β : Type} [LinearOrder β] (k : α → β) (a : α) (l : List α) :
    a ∈ sortByKey k l ↔ a ∈ l := by
  induction l with
  | nil => simp [sortByKey]
  | cons x xs ih =>
    simp only [sortByKey, List.foldr_cons, mem_insertByKey, List.mem_cons]
    rw [show xs.foldr (insertByKey k) [] = sortByKey k xs from rfl, ih]

theorem length_sortByKey {α β : Type} [LinearOrder β] (k : α → β) (l : List α) :
    (sortByKey k l).length = l.length := by
  induction l with
  | nil => rfl
  | cons x xs ih =>
    simp only [sortByKey, List.foldr_cons, length_insertByKey, List.length_cons]
    rw [show xs.foldr (insertByKey k) [] = sortByKey k xs from rfl, ih]

theorem pairwise_insertByKey {α β : Type} [LinearOrder β] (k : α → β) (e : α) (l : List α)
    (h : l.Pairwise (fun a b => k a ≤ k b)) :
    (insertByKey k e l).Pairwise (fun a b => k a ≤ k b) := by
  induction l with
  | nil => simp [insertByKey]
  | cons x xs ih =>
    rcases List.pairwise_cons.mp h with ⟨hx, hxs⟩
    by_cases hc : k e ≤ k x
    · simp only [insertByKey, if_pos hc]
      refine List.pairwise_cons.mpr ⟨?_, h⟩
      intro b hb
      rcases List.mem_cons.mp hb with rfl | hb
      · exact hc
      · exact le_trans hc (hx b hb)
    · simp only [insertByKey, if_neg hc]
      refine List.pairwise_cons.mpr ⟨?_, ih hxs⟩
      intro b hb
      rcases (mem_insertByKey k e b xs).mp hb with rfl | hb
      · exact le_of_lt (lt_of_not_le hc)
      · exact hx b hb

theorem pairwise_sortByKey {α β : Type} [LinearOrder β] (k : α → β) (l : List α) :
    (sortByKey k l).Pairwise (fun a b => k a ≤ k b) := by
  induction l with
  | nil => simp [sortByKey]
  | cons x xs ih =>
    simp only [sortByKey, List.foldr_cons]
    exact pairwise_insertByKey k x _ ih

theorem sortByKey_eq_nil {α β : Type} [LinearOrder β] (k : α → β) (l : List α) :
    sortByKey k l = [] ↔ l = [] := by
  constructor
  · intro h
    have := length_sortByKey k l
    rw [h] at this
    exact List.length_eq_zero.mp this.symm
  · intro h; subst h; rfl

/-- Sorted list of the distinct values of a column, as produced by the
Spark pivot (distinct pivot values, ascending) and by sort("movieId"). -/
def dedupSorted (l : List ℕ) : List ℕ := sortByKey id l.dedup

theorem mem_dedupSorted (a : ℕ) (l : List ℕ) : a ∈ dedupSorted l ↔ a ∈ l := by
  rw [dedupSorted, mem_sortByKey, List.mem_dedup]

theorem dedupSorted_eq_nil (l : List ℕ) : dedupSorted l = [] ↔ l = [] := by
  rw [dedupSorted, sortByKey_eq_nil, List.dedup_eq_nil]

/-! ## SimilarityEngine (collab_part2, lines 113-118 and 244-257) -/

/-- Dot product of two rating vectors (pyspark Vectors.dot). -/
def dotp (x y : List ℚ) : ℚ := (List.zipWith (fun a b => a * b) x y).sum

/-- Squared 2-norm of a rating vector; Vectors.norm(v, 2) is its square root. -/
def normSq (x : List ℚ) : ℚ := dotp x x

/-- Cosine similarity measure, collab_part2 lines 113-118:
float(x1.dot(x2) / (Vectors.norm(x1,2) * Vectors.norm(x2,2))).
The square root inside the norms is irrational, so the score is kept symbolic
in an arbitrary `s : ℚ → ℚ` standing for the library square root; the
denominator norm(x)*norm(y) is zero exactly when normSq x = 0 or normSq y = 0,
and the Python float division then yields IEEE NaN (numpy 0.0/0.0), which is
modelled as `none`.  The source has no guard on this division. -/
def co_sym (s : ℚ → ℚ) (x y : List ℚ) : Option ℚ :=
  if normSq x = 0 ∨ normSq y = 0 then none
  else some (dotp x y / (s (normSq x) * s (normSq y)))

/-- Rating of (movie m, user u) in the training list, 0 when absent:
agg({"rating": "first"}) composed with fillna(0). -/
def ratingOrZero (train : List Rating) (m u : ℕ) : ℚ :=
  ((train.find? fun r => decide (r.movieId = m ∧ r.userId = u)).map Rating.rating).getD 0

/-- UtilityMatrixBuilder, collab_part2 lines 244-246:
df.groupBy("movieId").pivot("userId").agg({"rating": "first"}).fillna(0), then
df.sort("movieId").  Rows are the distinct movieIds sorted ascending; the shared
user index is the distinct userIds sorted ascending (Spark pivot column order). -/
def pivot_utility (train : List Rating) : List (ℕ × List ℚ) :=
  (dedupSorted (train.map Rating.movieId)).map fun m =>
    (m, (dedupSorted (train.map Rating.userId)).map fun u => ratingOrZero train m u)

/-- SimilarityEngine, collab_part2 lines 253-257: crossJoin of the item-vector
dataframe with itself, where a.movieId != b.movieId, selecting
(movieId, movieId_1, dot_udf(a.features, b.features)). -/
def similarity_matrix (s : ℚ → ℚ) (rows : List (ℕ × List ℚ)) :
    List (ℕ × ℕ × Option ℚ) :=
  rows.flatMap fun a =>
    (rows.filter fun b => decide (a.1 ≠ b.1)).map fun b => (a.1, b.1, co_sym s a.2 b.2)

/-- The similarity column as consumed by the downstream joins: a numeric double
column.  An undefined score (NaN from a zero-norm vector) flows through the join
as a value; the exact-arithmetic model substitutes 0 for it here — the claims
proved over this glue (pipeline determinism, scored-row membership) do not
depend on the substituted value. -/
def similarity_entries (s : ℚ → ℚ) (train : List Rating) : List (ℕ × ℕ × ℚ) :=
  (similarity_matrix s (pivot_utility train)).map fun e => (e.1, e.2.1, e.2.2.getD 0)

/-! ## User-movie-rating matrix and prediction (collab_part2, lines 260-262, 322-343) -/

/-- Row of df_user_movie_rating: a training rating joined (left) with one
similarity entry of its movie; movieId_1 and similarity are null (`none`)
when the movie has no similarity entry. -/
structure SMRow where
  userId : ℕ
  movieId : ℕ
  rating : ℚ
  movieId_1 : Option ℕ
  similarity : Option ℚ
deriving DecidableEq, Repr

/-- collab_part2 lines 260-262: df_user_movie_rating.join(similarity_matrix,
movieId equality, how=left), one output row per (training row, matching
similarity entry), or a single null-extended row when nothing hits. -/
def df_user_movie_rating (train : List Rating) (simm : List (ℕ × ℕ × ℚ)) :
    List SMRow :=
  train.flatMap fun t =>
    let hits := simm.filter fun e => decide (e.1 = t.movieId)
    if hits = [] then [⟨t.userId, t.movieId, t.rating, none, none⟩]
    else hits.map fun e => ⟨t.userId, t.movieId, t.rating, some e.2.1, some e.2.2⟩

/-- The rows of df_user_movie_rating matching one test query, collab_part2
line 333: join condition tst.userId == sm.userId and tst.movieId == sm.movieId_1
(a null movieId_1 hits nothing, per SQL equality). -/
def sm_join (sm : List SMRow) (u m : ℕ) : List SMRow :=
  sm.filter fun e => decide (e.userId = u ∧ e.movieId_1 = some m)

/-- Numeric value of the similarity column of a joined row (always `some` after
the join on movieId_1; getD is a total-function artifact). -/
def simval (e : SMRow) : ℚ := e.similarity.getD 0

/-- Window order of line 330: orderBy(col("sm.similarity").desc()).  Modelled as
a deterministic sort, descending by similarity. -/
def sortSimDesc (l : List SMRow) : List SMRow := sortByKey (fun e => -(simval e)) l

/-- row_number().over(window) <= nValue, line 333: the first N rows of the
descending order. -/
def rank_topN (N : ℕ) (l : List SMRow) : List SMRow := (sortSimDesc l).take N

/-- NeighborSet of one (user u, target movie m) query: its joined rows, ranked
by similarity descending, cut at N. -/
def neighbor_set (train : List Rating) (simm : List (ℕ × ℕ × ℚ)) (N u m : ℕ) :
    List SMRow :=
  rank_topN N (sm_join (df_user_movie_rating train simm) u m)

/-- sum("weighted_rating") of the group, line 341 (weighted_rating =
sm.rating * sm.similarity, line 336). -/
def sum_weighted_rating (nb : List SMRow) : ℚ := (nb.map fun e => e.rating * simval e).sum

/-- sum("sm.similarity") of the group, line 341. -/
def sum_similarity (nb : List SMRow) : ℚ := (nb.map simval).sum

/-- Lines 342-343: predicted_rating = sum_weighted_rating / sum_similarity,
then coalesce(predicted_rating, 0.0).  Spark division by a zero denominator
yields NULL (non-ANSI semantics), so the coalesce turns exactly the
zero-similarity-sum groups into 0.0. -/
def predicted_rating (nb : List SMRow) : ℚ :=
  if sum_similarity nb = 0 then 0 else sum_weighted_rating nb / sum_similarity nb

/-- Lines 333-343 end to end: one output row (userId, movieId, rating,
predicted_rating) per test row whose join produced at least one neighbor; a
test row whose join is empty has no group and produces nothing. -/
def result_df (test train : List Rating) (simm : List (ℕ × ℕ × ℚ)) (N : ℕ) :
    List (ℕ × ℕ × ℚ × ℚ) :=
  test.flatMap fun t =>
    let nb := neighbor_set train simm N t.userId t.movieId
    if nb = [] then [] else [(t.userId, t.movieId, t.rating, predicted_rating nb)]

/-- The whole part-2 computation downstream of the train/test partition:
utility matrix, similarity entries, prediction rows.  The unseeded
randomSplit([0.8, 0.2]) of line 238 is the only random step, so the pipeline is
parameterized directly by the training partition it yields. -/
def full_pipeline (s : ℚ → ℚ) (train test : List Rating) (N : ℕ) :
    List (ℕ × List ℚ) × List (ℕ × ℕ × Option ℚ) × List (ℕ × ℕ × ℚ × ℚ) :=
  (pivot_utility train, similarity_matrix s (pivot_utility train),
    result_df test train (similarity_entries s train) N)

/-! ## Evaluator and the external latent-factor predictor -/

/-- Modelled from the spec: RegressionEvaluator(metricName="rmse") (collab_part2
lines 387-389) is external pyspark library code, not in src/.  Per the spec,
its contract is RMSE = sqrt(mean((actual - predicted)^2)).  The evaluator is
modelled operationally as one aggregation pass accumulating (count, sum of
squared errors) and combining them; `s` again stands for the library square
root.  On an empty input the rational 0/0 is 0 here, where the library reports
NaN, so theorems about it carry a nonemptiness hypothesis. -/
def rmse_eval (s : ℚ → ℚ) (rows : List (ℚ × ℚ)) : ℚ :=
  let acc := rows.foldl (fun st p => (st.1 + 1, st.2 + (p.1 - p.2) ^ 2)) ((0 : ℚ), (0 : ℚ))
  s (acc.2 / acc.1)

/-- The spec's formula, written directly: sqrt( mean( (actual - predicted)^2 ) )
with the mean taken over all entries of the sequence. -/
def rmse_spec (s : ℚ → ℚ) (rows : List (ℚ × ℚ)) : ℚ :=
  s (((rows.map fun p => (p.1 - p.2) ^ 2).sum) / (rows.length : ℚ))

/-- Modelled from the spec: the latent-factor (ALS) predictor of collab_part3 is
external pyspark library code, not in src/.  Per the spec it returns a defined
"unknown" sentinel when either identifier was absent from training, and
collab_part3 line 156 sets coldStartStrategy="drop", so a test row is scored by
the part-3 evaluation iff both its user and its movie occur in the training
ratings. -/
def als_scored (train : List Rating) (t : Rating) : Bool :=
  decide (t.userId ∈ train.map Rating.userId) && decide (t.movieId ∈ train.map Rating.movieId)

/-- No (user, movie) pair of the test partition also carries a training rating:
the two partitions come from randomSplit of a rating set with at most one
rating per pair (the data model of the spec). -/
def pair_disjoint (train test : List Rating) : Prop :=
  ∀ t ∈ test, ∀ tr ∈ train, ¬(t.userId = tr.userId ∧ t.movieId = tr.movieId)

/-! ## First-iteration single-query predictor (collab_part1, lines 267-285) -/

/-- Row of the part-1 df_user_movie_rating (movieId, userId, rating, movieId_1,
similarity); the rows reaching the part-1 filter all have non-null similarity. -/
structure SM1Row where
  movieId : ℕ
  userId : ℕ
  rating : ℚ
  movieId_1 : ℕ
  similarity : ℚ
deriving DecidableEq, Repr

/-- Lines 270-273: filter on (userId == user_id) and (movieId_1 == movie_id),
sort by similarity descending, limit(2). -/
def p1_selected (u m : ℕ) (smDF : List SM1Row) : List SM1Row :=
  (sortByKey (fun e => -e.similarity) (smDF.filter fun e =>
    decide (e.userId = u ∧ e.movieId_1 = m))).take 2

/-- collab_part1 lines 267-285.  numerator and denominator are Spark scalar
aggregations: sum(...) over the selected rows, which is NULL (Python None) when
no row was selected.  The code then runs
  if denominator != 0: predicted = numerator / denominator
  else: predicted = None
With denominator None the comparison None != 0 is True in Python and the
division raises TypeError, modelled as `Except.error`; otherwise the function
returns a float or None, modelled as `Except.ok (some q)` / `Except.ok none`. -/
def predict_user_rating (u m : ℕ) (smDF : List SM1Row) : Except Unit (Option ℚ) :=
  let sel := p1_selected u m smDF
  let numerator : Option ℚ :=
    if sel = [] then none else some ((sel.map fun e => e.rating * e.similarity).sum)
  let denominator : Option ℚ :=
    if sel = [] then none else some ((sel.map SM1Row.similarity).sum)
  match denominator with
  | none => Except.error ()
  | some d => if d = 0 then Except.ok none else Except.ok (some (numerator.getD 0 / d))

/-! ## Basic facts about the similarity measure -/

theorem dotp_comm (x y : List ℚ) : dotp x y = dotp y x := by
  induction x generalizing y with
  | nil => cases y <;> simp [dotp]
  | cons a as ih =>
    cases y with
    | nil => simp [dotp]
    | cons b bs =>
      simp only [dotp, List.zipWith_cons_cons, List.sum_cons]
      rw [mul_comm a b]
      exact congrArg (fun t => b * a + t) (ih bs)

theorem co_sym_comm (s : ℚ → ℚ) (x y : List ℚ) : co_sym s x y = co_sym s y x := by
  by_cases h : normSq x = 0 ∨ normSq y = 0
  · rw [co_sym, if_pos h, co_sym, if_pos (Or.symm h)]
  · rw [co_sym, if_neg h, co_sym, if_neg (fun hc => h (Or.symm hc))]
    rw [dotp_comm x y, mul_comm (s (normSq x)) (s (normSq y))]

/-! ## Claim C1 -/

/-- C1, counterexample.  The claim states that when either vector has zero
2-norm the similarity function returns 0.0.  On the zero vector against the
unit vector, co_sym evaluates its division with a zero denominator and produces
NaN (modelled none), not 0.0. -/
theorem counterexample_C1 : co_sym id [(0 : ℚ)] [(1 : ℚ)] ≠ some 0 := by
  simp [co_sym, normSq, dotp]

/-- C1, amended: if either item rating vector has zero 2-norm, co_sym evaluates
the unguarded division with a zero denominator and returns the undefined float
value NaN (modelled none) — it neither returns 0.0 nor avoids the division. -/
theorem spec_C1 (s : ℚ → ℚ) (x y : List ℚ) (h : normSq x = 0 ∨ normSq y = 0) :
    co_sym s x y = none ∧ co_sym s x y ≠ some 0 := by
  refine ⟨?_, ?_⟩ <;> simp [co_sym, h]

/-- C1, witness: the amended theorem applied to the zero vector. -/
theorem witness_C1 :
    co_sym id [(0 : ℚ)] [(1 : ℚ)] = none ∧ co_sym id [(0 : ℚ)] [(1 : ℚ)] ≠ some 0 :=
  spec_C1 id [(0 : ℚ)] [(1 : ℚ)] (Or.inl (by norm_num [normSq, dotp]))

/-! ## Claim C4 -/

/-- C4: the pipeline downstream of the train/test partition is a pure function
of that partition: two runs given equal training partitions (the premise "same
seed") and equal test partitions produce equal utility matrices, equal
similarity-entry lists and equal prediction-result lists.  The unseeded
randomSplit (collab_part2 line 238) is the only random step and lies outside
the quantified inputs; engine-level reordering (floating-point reduction order,
window ties) is outside this exact-arithmetic model. -/
theorem spec_C4 (s : ℚ → ℚ) (train₁ test₁ train₂ test₂ : List Rating) (N : ℕ)
    (htrain : train₁ = train₂) (htest : test₁ = test₂) :
    full_pipeline s train₁ test₁ N = full_pipeline s train₂ test₂ N := by
  rw [htrain, htest]

/-- C4, witness: two runs on one concrete partition coincide. -/
theorem witness_C4 :
    full_pipeline id [⟨1, 1, 5⟩] [⟨1, 2, 3⟩] 2 = full_pipeline id [⟨1, 1, 5⟩] [⟨1, 2, 3⟩] 2 :=
  spec_C4 id [⟨1, 1, 5⟩] [⟨1, 2, 3⟩] [⟨1, 1, 5⟩] [⟨1, 2, 3⟩] 2 rfl rfl

/-! ## Claim C6 -/

/-- C6: the similarity relation is symmetric: every entry (i, j, v) of the
similarity matrix has a mirror entry (j, i, v) carrying the same score (exact
equality in the exact-arithmetic model, where the claim allows floating-point
tolerance). -/
theorem spec_C6 (s : ℚ → ℚ) (rows : List (ℕ × List ℚ)) (i j : ℕ) (v : Option ℚ)
    (h : (i, j, v) ∈ similarity_matrix s rows) : (j, i, v) ∈ similarity_matrix s rows := by
  simp only [similarity_matrix, List.mem_flatMap, List.mem_map, List.mem_filter,
    decide_eq_true_eq] at h ⊢
  obtain ⟨a, ha, b, ⟨hb, hne⟩, heq⟩ := h
  injection heq with h1 hrest
  injection hrest with h2 h3
  exact ⟨b, hb, a, ⟨ha, Ne.symm hne⟩, by rw [h1, h2, co_sym_comm s b.2 a.2, h3]⟩

/-- C6, witness: the matrix over two orthogonal unit item vectors holds the
entry (1, 2, 0.0), and by the symmetry theorem also the mirror entry (2, 1, 0.0). -/
theorem witness_C6 :
    ((2 : ℕ), (1 : ℕ), some (0 : ℚ)) ∈
      similarity_matrix id [((1 : ℕ), [(1 : ℚ), 0]), ((2 : ℕ), [(0 : ℚ), 1])] :=
  spec_C6 id [((1 : ℕ), [(1 : ℚ), 0]), ((2 : ℕ), [(0 : ℚ), 1])] 1 2 (some 0)
    (by norm_num [similarity_matrix, co_sym, normSq, dotp])

/-! ## Claim C8 -/

/-- C8, counterexample.  The claim states that on an empty training set the
UtilityMatrixBuilder fails with a DataShapeError; the pivot has no failure path
and silently produces the empty utility matrix. -/
theorem counterexample_C8 : pivot_utility [] = [] := rfl

/-- C8, amended: the UtilityMatrixBuilder never fails; it produces an empty
utility matrix exactly when the training set is empty, silently. -/
theorem spec_C8 (train : List Rating) : pivot_utility train = [] ↔ train = [] := by
  rw [pivot_utility, List.map_eq_nil_iff, dedupSorted_eq_nil, List.map_eq_nil_iff]

/-! ## Claim C9 -/

theorem rmse_foldl (rows : List (ℚ × ℚ)) : ∀ a b : ℚ,
    rows.foldl (fun st p => (st.1 + 1, st.2 + (p.1 - p.2) ^ 2)) (a, b) =
      (a + (rows.length : ℚ), b + ((rows.map fun p => (p.1 - p.2) ^ 2).sum)) := by
  induction rows with
  | nil => intro a b; simp
  | cons p ps ih =>
    intro a b
    simp only [List.foldl_cons, ih, List.length_cons, List.map_cons, List.sum_cons,
      Prod.mk.injEq]
    push_cast
    constructor <;> ring

/-- C9: on a non-empty sequence of prediction results the evaluator reports
sqrt applied to the mean — not the plain sum — of the squared errors, exactly
the spec formula RMSE = sqrt(mean((actual - predicted)^2)). -/
theorem spec_C9 (s : ℚ → ℚ) (rows : List (ℚ × ℚ)) (hne : rows ≠ []) :
    rmse_eval s rows = rmse_spec s rows := by
  rw [rmse_eval, rmse_spec, rmse_foldl rows 0 0]
  simp

/-- C9, witness: a concrete two-row evaluation; mean of squared errors 2 and 4
is 3, and the evaluator agrees with the spec formula. -/
theorem witness_C9 :
    rmse_eval id [((3 : ℚ), 1), ((5 : ℚ), 3)] = rmse_spec id [((3 : ℚ), 1), ((5 : ℚ), 3)] :=
  spec_C9 id [((3 : ℚ), 1), ((5 : ℚ), 3)] (by simp)

/-! ## Claim C10 -/

/-- C10: in the first-iteration single-query predictor, when at least one
neighbor is selected and the selected similarities sum to exactly 0, the
function returns the Python value None (ok none) — not the numeric 0.0. -/
theorem spec_C10 (u m : ℕ) (smDF : List SM1Row)
    (hne : p1_selected u m smDF ≠ [])
    (hzero : ((p1_selected u m smDF).map SM1Row.similarity).sum = 0) :
    predict_user_rating u m smDF = Except.ok none ∧
      predict_user_rating u m smDF ≠ Except.ok (some 0) := by
  refine ⟨?_, ?_⟩ <;> simp [predict_user_rating, hne, hzero]

/-- C10, witness: user 5 querying movie 1 with two selected neighbors of
similarities 1 and -1 (sum 0) receives None. -/
theorem witness_C10 :
    predict_user_rating 5 1 [⟨2, 5, 3, 1, 1⟩, ⟨3, 5, 4, 1, -1⟩] = Except.ok none ∧
      predict_user_rating 5 1 [⟨2, 5, 3, 1, 1⟩, ⟨3, 5, 4, 1, -1⟩] ≠ Except.ok (some 0) :=
  spec_C10 5 1 [⟨2, 5, 3, 1, 1⟩, ⟨3, 5, 4, 1, -1⟩]
    (by norm_num [p1_selected, sortByKey, insertByKey]; exact List.cons_ne_nil _ _)
    (by norm_num [p1_selected, sortByKey, insertByKey])

/-! ## Structure of the join, the ranking and the prediction rows -/

theorem mem_sm_join (sm : List SMRow) (u m : ℕ) (e : SMRow) :
    e ∈ sm_join sm u m ↔ e ∈ sm ∧ e.userId = u ∧ e.movieId_1 = some m := by
  simp [sm_join, List.mem_filter, and_assoc]

theorem df_user_movie_rating_elim (train : List Rating) (simm : List (ℕ × ℕ × ℚ))
    (e : SMRow) (he : e ∈ df_user_movie_rating train simm) :
    ∃ t ∈ train, e.userId = t.userId ∧ e.movieId = t.movieId ∧ e.rating = t.rating ∧
      ((e.movieId_1 = none ∧ e.similarity = none) ∨
        ∃ q v, e.movieId_1 = some q ∧ e.similarity = some v ∧ (t.movieId, q, v) ∈ simm) := by
  simp only [df_user_movie_rating, List.mem_flatMap] at he
  obtain ⟨t, ht, he⟩ := he
  by_cases hh : simm.filter (fun en => decide (en.1 = t.movieId)) = []
  · rw [if_pos hh] at he
    rw [List.mem_singleton] at he
    subst he
    exact ⟨t, ht, rfl, rfl, rfl, Or.inl ⟨rfl, rfl⟩⟩
  · rw [if_neg hh] at he
    obtain ⟨en, hen, he⟩ := List.mem_map.mp he
    subst he
    have hen2 := List.mem_filter.mp hen
    refine ⟨t, ht, rfl, rfl, rfl, Or.inr ⟨en.2.1, en.2.2, rfl, rfl, ?_⟩⟩
    have hfst : en.1 = t.movieId := by simpa using hen2.2
    rw [← hfst]
    exact hen2.1

theorem df_user_movie_rating_intro (train : List Rating) (simm : List (ℕ × ℕ × ℚ))
    (t : Rating) (ht : t ∈ train) (q : ℕ) (v : ℚ) (hs : (t.movieId, q, v) ∈ simm) :
    (⟨t.userId, t.movieId, t.rating, some q, some v⟩ : SMRow) ∈
      df_user_movie_rating train simm := by
  simp only [df_user_movie_rating, List.mem_flatMap]
  refine ⟨t, ht, ?_⟩
  have hmem : ((t.movieId, q, v) : ℕ × ℕ × ℚ) ∈
      simm.filter (fun en => decide (en.1 = t.movieId)) :=
    List.mem_filter.mpr ⟨hs, by simp⟩
  rw [if_neg (List.ne_nil_of_mem hmem)]
  exact List.mem_map.mpr ⟨(t.movieId, q, v), hmem, rfl⟩

theorem rank_topN_length (N : ℕ) (l : List SMRow) : (rank_topN N l).length ≤ N := by
  simp only [rank_topN, List.length_take]
  exact min_le_left _ _

theorem rank_topN_subset (N : ℕ) (l : List SMRow) (e : SMRow)
    (he : e ∈ rank_topN N l) : e ∈ l := by
  have h := List.take_subset N (sortSimDesc l) he
  rw [sortSimDesc] at h
  exact (mem_sortByKey _ e l).mp h

theorem rank_topN_eq_nil (N : ℕ) (l : List SMRow) :
    rank_topN N l = [] ↔ N = 0 ∨ l = [] := by
  rw [rank_topN, List.take_eq_nil_iff, sortSimDesc, sortByKey_eq_nil]

theorem rank_topN_pairwise (N : ℕ) (l : List SMRow) :
    (rank_topN N l).Pairwise (fun a b => simval b ≤ simval a) := by
  have h2 : (sortSimDesc l).Pairwise (fun a b => simval b ≤ simval a) := by
    refine (pairwise_sortByKey (fun e => -(simval e)) l).imp ?_
    intro a b hab
    exact neg_le_neg_iff.mp hab
  exact List.Pairwise.sublist (List.take_sublist N _) h2

theorem rank_topN_all (N : ℕ) (l : List SMRow) (hlen : l.length ≤ N) (e : SMRow)
    (he : e ∈ l) : e ∈ rank_topN N l := by
  rw [rank_topN, List.take_of_length_le]
  · rw [sortSimDesc]
    exact (mem_sortByKey _ e l).mpr he
  · rw [sortSimDesc, length_sortByKey]
    exact hlen

theorem result_df_intro (test train : List Rating) (simm : List (ℕ × ℕ × ℚ)) (N : ℕ)
    (t : Rating) (ht : t ∈ test)
    (hnb : neighbor_set train simm N t.userId t.movieId ≠ []) :
    (t.userId, t.movieId, t.rating,
        predicted_rating (neighbor_set train simm N t.userId t.movieId)) ∈
      result_df test train simm N := by
  simp only [result_df, List.mem_flatMap]
  exact ⟨t, ht, by rw [if_neg hnb]; exact List.mem_singleton.mpr rfl⟩

theorem result_df_elim (test train : List Rating) (simm : List (ℕ × ℕ × ℚ)) (N : ℕ)
    (u m : ℕ) (r p : ℚ) (h : (u, m, r, p) ∈ result_df test train simm N) :
    neighbor_set train simm N u m ≠ [] ∧
      p = predicted_rating (neighbor_set train simm N u m) := by
  simp only [result_df, List.mem_flatMap] at h
  obtain ⟨t, ht, h⟩ := h
  by_cases hnb : neighbor_set train simm N t.userId t.movieId = []
  · rw [if_pos hnb] at h
    exact absurd h (List.not_mem_nil _)
  · rw [if_neg hnb, List.mem_singleton] at h
    injection h with h1 h'
    injection h' with h2 h''
    injection h'' with h3 h4
    subst h1
    subst h2
    exact ⟨hnb, h4⟩

/-! ## Claim C2 -/

/-- C2, counterexample.  The claim states that a query with an empty
NeighborSet still produces its output row with predicted rating 0.0.  For the
test row (user 1, movie 10, rating 3) against a training set in which user 1
rated nothing, the inner join yields no group at all: result_df has no row for
the query — the row is silently lost, and in particular the claimed
(1, 10, 3, 0.0) row is absent. -/
theorem counterexample_C2 :
    result_df [⟨1, 10, 3⟩] [⟨2, 20, 5⟩] [] 2 = [] ∧
      ((1 : ℕ), (10 : ℕ), (3 : ℚ), (0 : ℚ)) ∉ result_df [⟨1, 10, 3⟩] [⟨2, 20, 5⟩] [] 2 := by
  constructor
  · rfl
  · rw [show result_df [⟨1, 10, 3⟩] [⟨2, 20, 5⟩] [] 2 = [] from rfl]
    exact List.not_mem_nil _

/-- C2, amended: for every test query whose NeighborSet is non-empty, result_df
contains its row, with predicted rating 0.0 when the similarity sum is exactly
0.0 (Spark division by zero gives NULL, coalesced to 0.0) and the weighted
average sum(sim*rating)/sum(sim) otherwise; a query whose NeighborSet is empty
produces no row at all (it is silently dropped from the output, not defaulted). -/
theorem spec_C2 (test train : List Rating) (simm : List (ℕ × ℕ × ℚ)) (N : ℕ)
    (t : Rating) (ht : t ∈ test) :
    (neighbor_set train simm N t.userId t.movieId ≠ [] →
        (t.userId, t.movieId, t.rating,
            predicted_rating (neighbor_set train simm N t.userId t.movieId)) ∈
          result_df test train simm N ∧
        (sum_similarity (neighbor_set train simm N t.userId t.movieId) = 0 →
            predicted_rating (neighbor_set train simm N t.userId t.movieId) = 0) ∧
        (sum_similarity (neighbor_set train simm N t.userId t.movieId) ≠ 0 →
            predicted_rating (neighbor_set train simm N t.userId t.movieId) =
              sum_weighted_rating (neighbor_set train simm N t.userId t.movieId) /
                sum_similarity (neighbor_set train simm N t.userId t.movieId))) ∧
    (neighbor_set train simm N t.userId t.movieId = [] →
        ∀ p, (t.userId, t.movieId, t.rating, p) ∉ result_df test train simm N) := by
  constructor
  · intro hnb
    refine ⟨result_df_intro test train simm N t ht hnb, ?_, ?_⟩
    · intro hz
      rw [predicted_rating, if_pos hz]
    · intro hz
      rw [predicted_rating, if_neg hz]
  · intro hnb p hp
    exact (result_df_elim test train simm N _ _ _ _ hp).1 hnb

/-- C2, witness: a warm query (user 2, movie 10) with the single neighbor
(movie 20, similarity 1, rating 5) gets its row in result_df. -/
theorem witness_C2 :
    neighbor_set [⟨2, 20, 5⟩] [(20, 10, 1)] 2 2 10 ≠ [] ∧
      ((2 : ℕ), (10 : ℕ), (4 : ℚ),
          predicted_rating (neighbor_set [⟨2, 20, 5⟩] [(20, 10, 1)] 2 2 10)) ∈
        result_df [⟨2, 10, 4⟩] [⟨2, 20, 5⟩] [(20, 10, 1)] 2 := by
  have hnb : neighbor_set [(⟨2, 20, 5⟩ : Rating)] [(20, 10, 1)] 2 2 10 ≠ [] := by
    norm_num [neighbor_set, rank_topN, sortSimDesc, sortByKey, insertByKey, sm_join,
      df_user_movie_rating]
  exact ⟨hnb,
    ((spec_C2 [⟨2, 10, 4⟩] [⟨2, 20, 5⟩] [(20, 10, 1)] 2 ⟨2, 10, 4⟩
      (List.mem_singleton.mpr rfl)).1 hnb).1⟩

/-! ## Claim C3 -/

/-- C3: the NeighborSet of a (user u, target m, N >= 1) query has at most N
entries; every entry is a training rating of user u on a movie with a defined
(non-null) similarity entry towards m; entries are sorted by similarity
descending (the model's sort is a fixed function, so ties are broken
deterministically); and when at most N rows qualify, all of them appear. -/
theorem spec_C3 (train : List Rating) (simm : List (ℕ × ℕ × ℚ)) (N u m : ℕ)
    (hN : 1 ≤ N) :
    (neighbor_set train simm N u m).length ≤ N ∧
    (∀ e ∈ neighbor_set train simm N u m,
        e.userId = u ∧ (⟨u, e.movieId, e.rating⟩ : Rating) ∈ train ∧
        e.movieId_1 = some m ∧ ∃ v, e.similarity = some v ∧ (e.movieId, m, v) ∈ simm) ∧
    (neighbor_set train simm N u m).Pairwise (fun a b => simval b ≤ simval a) ∧
    ((sm_join (df_user_movie_rating train simm) u m).length ≤ N →
        ∀ e ∈ sm_join (df_user_movie_rating train simm) u m,
          e ∈ neighbor_set train simm N u m) := by
  refine ⟨rank_topN_length N _, ?_, rank_topN_pairwise N _,
    fun hlen e he => rank_topN_all N _ hlen e he⟩
  intro e he
  obtain ⟨hdf, huid, hm1⟩ := (mem_sm_join _ u m e).mp (rank_topN_subset N _ e he)
  obtain ⟨t, ht, h1, h2, h3, hcase⟩ := df_user_movie_rating_elim train simm e hdf
  rcases hcase with ⟨hn, _⟩ | ⟨q, v, hq, hv, hsim⟩
  · rw [hn] at hm1
    exact absurd hm1 (by simp)
  · have hqm : q = m := by
      rw [hq] at hm1
      injection hm1
    have ht2 : (⟨u, e.movieId, e.rating⟩ : Rating) = t := by
      rw [← huid, h1, h2, h3]
    refine ⟨huid, by rw [ht2]; exact ht, hm1, v, hv, ?_⟩
    rw [h2, ← hqm]
    exact hsim

/-- C3, witness: user 5 rated movies 2 and 3, both with similarity entries to
target 1; with N = 2 the NeighborSet has at most 2 entries. -/
theorem witness_C3 :
    1 ≤ 2 ∧ (neighbor_set [⟨5, 2, 3⟩, ⟨5, 3, 4⟩] [(2, 1, 1), (3, 1, 2)] 2 5 1).length ≤ 2 :=
  ⟨by norm_num, (spec_C3 [⟨5, 2, 3⟩, ⟨5, 3, 4⟩] [(2, 1, 1), (3, 1, 2)] 2 5 1 (by norm_num)).1⟩

/-! ## Claim C5 -/

/-- C5: on a non-empty NeighborSet whose similarities are all non-negative and
not all zero and whose ratings lie in [0, 5], the weighted average is a convex
combination: the predicted rating also lies in [0, 5]. -/
theorem spec_C5 (nb : List SMRow) (hne : nb ≠ [])
    (hsim : ∀ e ∈ nb, 0 ≤ simval e) (hpos : ∃ e ∈ nb, simval e ≠ 0)
    (hr : ∀ e ∈ nb, 0 ≤ e.rating ∧ e.rating ≤ 5) :
    0 ≤ predicted_rating nb ∧ predicted_rating nb ≤ 5 := by
  obtain ⟨e0, he0, hne0⟩ := hpos
  have hmapnn : ∀ x ∈ nb.map simval, 0 ≤ x := by
    intro x hx
    obtain ⟨e, he, hxe⟩ := List.mem_map.mp hx
    rw [← hxe]
    exact hsim e he
  have hss_pos : 0 < sum_similarity nb := by
    rw [sum_similarity]
    have h1 : simval e0 ≤ (nb.map simval).sum :=
      List.single_le_sum hmapnn _ (List.mem_map_of_mem simval he0)
    exact lt_of_lt_of_le (lt_of_le_of_ne (hsim e0 he0) (Ne.symm hne0)) h1
  have hswr_nn : 0 ≤ sum_weighted_rating nb := by
    rw [sum_weighted_rating]
    refine List.sum_nonneg ?_
    intro x hx
    obtain ⟨e, he, hxe⟩ := List.mem_map.mp hx
    rw [← hxe]
    exact mul_nonneg (hr e he).1 (hsim e he)
  have hbound : sum_weighted_rating nb ≤ 5 * sum_similarity nb := by
    rw [sum_weighted_rating, sum_similarity, ← List.sum_map_mul_left]
    exact List.sum_le_sum fun e he => mul_le_mul_of_nonneg_right (hr e he).2 (hsim e he)
  rw [predicted_rating, if_neg (ne_of_gt hss_pos)]
  refine ⟨div_nonneg hswr_nn (le_of_lt hss_pos), ?_⟩
  rw [div_le_iff₀ hss_pos]
  exact hbound

/-- C5, witness: the singleton NeighborSet with similarity 1 and rating 4
predicts 4, inside [0, 5]. -/
theorem witness_C5 :
    0 ≤ predicted_rating [⟨1, 10, 4, some 20, some 1⟩] ∧
      predicted_rating [⟨1, 10, 4, some 20, some 1⟩] ≤ 5 :=
  spec_C5 [⟨1, 10, 4, some 20, some 1⟩] (List.cons_ne_nil _ _)
    (by norm_num [simval])
    ⟨⟨1, 10, 4, some 20, some 1⟩, List.mem_singleton.mpr rfl, by norm_num [simval]⟩
    (by norm_num)

/-! ## Claim C7 -/

theorem pivot_fst_mem (train : List Rating) (a : ℕ × List ℚ) (ha : a ∈ pivot_utility train) :
    a.1 ∈ train.map Rating.movieId := by
  simp only [pivot_utility, List.mem_map] at ha
  obtain ⟨m, hm, ha⟩ := ha
  rw [← ha]
  exact (mem_dedupSorted m _).mp hm

theorem pivot_row_mem (train : List Rating) (m : ℕ) (hm : m ∈ train.map Rating.movieId) :
    (m, (dedupSorted (train.map Rating.userId)).map fun u => ratingOrZero train m u) ∈
      pivot_utility train := by
  simp only [pivot_utility, List.mem_map]
  exact ⟨m, (mem_dedupSorted m _).mpr hm, rfl⟩

theorem similarity_entries_elim (s : ℚ → ℚ) (train : List Rating) (p q : ℕ) (v : ℚ)
    (h : (p, q, v) ∈ similarity_entries s train) :
    p ∈ train.map Rating.movieId ∧ q ∈ train.map Rating.movieId ∧ p ≠ q := by
  simp only [similarity_entries, List.mem_map] at h
  obtain ⟨e, he, heq⟩ := h
  obtain ⟨e1, e2, e3⟩ := e
  injection heq with h1 hrest
  injection hrest with h2 h3
  subst h1
  subst h2
  simp only [similarity_matrix, List.mem_flatMap, List.mem_map, List.mem_filter,
    decide_eq_true_eq] at he
  obtain ⟨a, ha, b, ⟨hb, hab⟩, heq2⟩ := he
  injection heq2 with g1 grest
  injection grest with g2 g3
  subst g1
  subst g2
  exact ⟨pivot_fst_mem train a ha, pivot_fst_mem train b hb, hab⟩

theorem similarity_entries_intro (s : ℚ → ℚ) (train : List Rating) (p q : ℕ)
    (hp : p ∈ train.map Rating.movieId) (hq : q ∈ train.map Rating.movieId)
    (hne : p ≠ q) : ∃ v, (p, q, v) ∈ similarity_entries s train := by
  have hmm : (p, q, co_sym s
      ((dedupSorted (train.map Rating.userId)).map fun u => ratingOrZero train p u)
      ((dedupSorted (train.map Rating.userId)).map fun u => ratingOrZero train q u)) ∈
      similarity_matrix s (pivot_utility train) := by
    simp only [similarity_matrix, List.mem_flatMap]
    refine ⟨_, pivot_row_mem train p hp, ?_⟩
    exact List.mem_map.mpr ⟨_,
      List.mem_filter.mpr ⟨pivot_row_mem train q hq, by simpa using hne⟩, rfl⟩
  refine ⟨(co_sym s
      ((dedupSorted (train.map Rating.userId)).map fun u => ratingOrZero train p u)
      ((dedupSorted (train.map Rating.userId)).map fun u => ratingOrZero train q u)).getD 0, ?_⟩
  simp only [similarity_entries, List.mem_map]
  exact ⟨_, hmm, rfl⟩

/-- The part-2 pipeline scores a test query iff its user and its movie both
occur in the training partition: the inner join of line 333 is non-empty
exactly for such warm rows (given that no test pair carries a training
rating). -/
theorem sm_join_ne_nil_iff_warm (s : ℚ → ℚ) (train : List Rating) (u m : ℕ)
    (hdisj : ∀ tr ∈ train, ¬(u = tr.userId ∧ m = tr.movieId)) :
    sm_join (df_user_movie_rating train (similarity_entries s train)) u m ≠ [] ↔
      u ∈ train.map Rating.userId ∧ m ∈ train.map Rating.movieId := by
  constructor
  · intro hne
    obtain ⟨e, he⟩ := List.exists_mem_of_ne_nil _ hne
    obtain ⟨hdf, huid, hm1⟩ := (mem_sm_join _ u m e).mp he
    obtain ⟨t, ht, h1, h2, h3, hcase⟩ :=
      df_user_movie_rating_elim train (similarity_entries s train) e hdf
    rcases hcase with ⟨hn, _⟩ | ⟨q, v, hq, hv, hsim⟩
    · rw [hn] at hm1
      exact absurd hm1 (by simp)
    · have hqm : q = m := by
        rw [hq] at hm1
        injection hm1
      subst hqm
      refine ⟨?_, (similarity_entries_elim s train t.movieId q v hsim).2.1⟩
      rw [← huid, h1]
      exact List.mem_map.mpr ⟨t, ht, rfl⟩
  · rintro ⟨hu, hm⟩
    obtain ⟨t, ht, htu⟩ := List.mem_map.mp hu
    have hne2 : t.movieId ≠ m := by
      intro hc
      exact hdisj t ht ⟨htu.symm, hc.symm⟩
    obtain ⟨v, hv⟩ := similarity_entries_intro s train t.movieId m
      (List.mem_map.mpr ⟨t, ht, rfl⟩) hm hne2
    have hrow := df_user_movie_rating_intro train (similarity_entries s train) t ht m v hv
    refine List.ne_nil_of_mem ((mem_sm_join _ u m _).mpr ⟨hrow, ?_, rfl⟩)
    exact htu

/-- C7: for every test row, with any N >= 1 and disjoint train/test rating
pairs: a cold row (user or movie absent from the training partition) is
excluded from scoring by both predictors — it gets no row in the part-2
result_df and the spec-modelled ALS cold-start drop discards it — and the set
of scored rows is the same for both: result_df carries a row for a test query
iff the ALS predictor scores it. -/
theorem spec_C7 (s : ℚ → ℚ) (train test : List Rating) (N : ℕ) (t : Rating)
    (hN : 1 ≤ N) (hdisj : pair_disjoint train test) (ht : t ∈ test) :
    (¬(t.userId ∈ train.map Rating.userId ∧ t.movieId ∈ train.map Rating.movieId) →
        als_scored train t = false ∧
        ∀ p, (t.userId, t.movieId, t.rating, p) ∉
          result_df test train (similarity_entries s train) N) ∧
    ((∃ p, (t.userId, t.movieId, t.rating, p) ∈
        result_df test train (similarity_entries s train) N) ↔
      als_scored train t = true) := by
  have hw := sm_join_ne_nil_iff_warm s train t.userId t.movieId
    (fun tr htr => hdisj t ht tr htr)
  have hals : als_scored train t = true ↔
      (t.userId ∈ train.map Rating.userId ∧ t.movieId ∈ train.map Rating.movieId) := by
    simp [als_scored]
  have hnbiff : neighbor_set train (similarity_entries s train) N t.userId t.movieId ≠ [] ↔
      sm_join (df_user_movie_rating train (similarity_entries s train)) t.userId t.movieId ≠ [] := by
    rw [not_iff_not]
    rw [neighbor_set, rank_topN_eq_nil]
    constructor
    · rintro (hzero | hj)
      · omega
      · exact hj
    · intro hj
      exact Or.inr hj
  have hscored : (∃ p, (t.userId, t.movieId, t.rating, p) ∈
      result_df test train (similarity_entries s train) N) ↔
      neighbor_set train (similarity_entries s train) N t.userId t.movieId ≠ [] := by
    constructor
    · rintro ⟨p, hp⟩
      exact (result_df_elim test train (similarity_entries s train) N _ _ _ _ hp).1
    · intro hnb
      exact ⟨_, result_df_intro test train (similarity_entries s train) N t ht hnb⟩
  constructor
  · intro hcold
    constructor
    · rcases Bool.eq_false_or_eq_true (als_scored train t) with hf | htr
      · exact absurd (hals.mp hf) hcold
      · exact htr
    · intro p hp
      exact hcold (hw.mp (hnbiff.mp
        ((result_df_elim test train (similarity_entries s train) N _ _ _ _ hp).1)))
  · rw [hscored, hnbiff, hw, hals]

/-- C7, witness: user 3 in the test row (3, 10, 1) never rated anything in
training, so neither predictor scores that row; the warm test row (2, 20, 2)
is scored by both. -/
theorem witness_C7 :
    1 ≤ 2 ∧ pair_disjoint [⟨1, 10, 5⟩, ⟨1, 20, 4⟩, ⟨2, 10, 3⟩] [⟨2, 20, 2⟩, ⟨3, 10, 1⟩] ∧
    ((¬((3 : ℕ) ∈ ([⟨1, 10, 5⟩, ⟨1, 20, 4⟩, ⟨2, 10, 3⟩] : List Rating).map Rating.userId ∧
          (10 : ℕ) ∈ ([⟨1, 10, 5⟩, ⟨1, 20, 4⟩, ⟨2, 10, 3⟩] : List Rating).map Rating.movieId) →
        als_scored [⟨1, 10, 5⟩, ⟨1, 20, 4⟩, ⟨2, 10, 3⟩] ⟨3, 10, 1⟩ = false ∧
        ∀ p, ((3 : ℕ), (10 : ℕ), (1 : ℚ), p) ∉
          result_df [⟨2, 20, 2⟩, ⟨3, 10, 1⟩] [⟨1, 10, 5⟩, ⟨1, 20, 4⟩, ⟨2, 10, 3⟩]
            (similarity_entries id [⟨1, 10, 5⟩, ⟨1, 20, 4⟩, ⟨2, 10, 3⟩]) 2) ∧
      ((∃ p, ((3 : ℕ), (10 : ℕ), (1 : ℚ), p) ∈
          result_df [⟨2, 20, 2⟩, ⟨3, 10, 1⟩] [⟨1, 10, 5⟩, ⟨1, 20, 4⟩, ⟨2, 10, 3⟩]
            (similarity_entries id [⟨1, 10, 5⟩, ⟨1, 20, 4⟩, ⟨2, 10, 3⟩]) 2) ↔
        als_scored [⟨1, 10, 5⟩, ⟨1, 20, 4⟩, ⟨2, 10, 3⟩] ⟨3, 10, 1⟩ = true)) := by
  refine ⟨by norm_num, ?_, ?_⟩
  · intro t htmem tr htr
    fin_cases htmem <;> fin_cases htr <;> simp
  · refine spec_C7 id [⟨1, 10, 5⟩, ⟨1, 20, 4⟩, ⟨2, 10, 3⟩] [⟨2, 20, 2⟩, ⟨3, 10, 1⟩] 2
      ⟨3, 10, 1⟩ (by norm_num) ?_ (by simp)
    intro t htmem tr htr
    fin_cases htmem <;> fin_cases htr <;> simp

end MovieRec
